import Mathlib

/-!
Verification development for the scorecard flag-capture scoring engine
(repository sources: ScoreCardSubmit.py, ScoreCardTally.py, S3KeyValueStore.py).

The Python sources are shallowly embedded below.  Dynamic Python values are
modelled by `Scorecard.Val`; Python dicts used as storage items are association
lists `Scorecard.Item`; wall-clock times, weights and timeouts are rationals;
functions that can raise return `Except Scorecard.PyErr _`.
-/

namespace Scorecard

/-- A dynamically-typed Python value as it appears in request events and
stored items.  `num` covers Python floats/Decimals (modelled as rationals). -/
inductive Val where
  | str (s : String)
  | int (n : Int)
  | num (q : ℚ)
  | bool (b : Bool)
  | none
deriving DecidableEq, Repr

/-- Python exceptions that the embedded code can raise. -/
inductive PyErr where
  | keyError (k : String)
  | typeError
  | valueError
deriving DecidableEq, Repr

/-- Is this value a Python `str`? -/
def Val.isStr : Val → Bool
  | .str _ => true
  | _ => false

/-- Decimal string of a rational, used only to render Python float values;
schematic for non-integral rationals (no theorem depends on that case). -/
def ratStr (q : ℚ) : String :=
  if q.den = 1 then toString q.num ++ ".0"
  else toString q.num ++ "/" ++ toString q.den

/-- Python `str(v)`. -/
def pyStr : Val → String
  | .str s => s
  | .int n => toString n
  | .num q => ratStr q
  | .bool b => if b then "True" else "False"
  | .none => "None"

/-- Parse a (decimal, optionally signed) integer literal the way Python 2's
`int(str)` does; `Option.none` models `ValueError`. -/
def parseIntStr (s : String) : Option Int :=
  let core (ds : List Char) (sign : Int) : Option Int :=
    if ds = [] ∨ ¬ ds.all Char.isDigit then Option.none
    else some (sign * (ds.foldl (fun acc c => 10 * acc + (c.toNat - 48)) 0 : Nat))
  match s.data with
  | '-' :: rest => core rest (-1)
  | '+' :: rest => core rest 1
  | ds => core ds 1

/-- Python `int(v)`: ints pass through, floats truncate toward zero, bools map
to 0/1, strings are parsed (`ValueError` on failure), `None` is a `TypeError`. -/
def pyInt : Val → Except PyErr Int
  | .str s =>
    match parseIntStr s with
    | some n => .ok n
    | Option.none => .error .valueError
  | .int n => .ok n
  | .num q => .ok (Int.tdiv q.num q.den)
  | .bool b => .ok (if b then 1 else 0)
  | .none => .error .typeError

/-- Parse a numeric literal the way Python's `float(str)` does, restricted to
the integer and `a.b` decimal forms used by this system. -/
def parseFloatStr (s : String) : Option ℚ :=
  match s.split (· = '.') with
  | [a] => (parseIntStr a).map (fun n => (n : ℚ))
  | [a, b] =>
    match parseIntStr a, parseIntStr b with
    | some n, some frac =>
      if b.data.all Char.isDigit ∧ b.length > 0 ∧ frac ≥ 0 then
        some ((n : ℚ) + (if n < 0 then -1 else 1) * (frac : ℚ) / (10 ^ b.length : ℕ))
      else Option.none
    | _, _ => Option.none
  | _ => Option.none

/-- Python `float(v)`. -/
def pyFloat : Val → Except PyErr ℚ
  | .str s =>
    match parseFloatStr s with
    | some q => .ok q
    | Option.none => .error .valueError
  | .int n => .ok (n : ℚ)
  | .num q => .ok q
  | .bool b => .ok (if b then 1 else 0)
  | .none => .error .typeError

/-- A Python dict used as a storage item: an association list from attribute
names to values. -/
abbrev Item := List (String × Val)

/-- Python `item[k]` lookup (first binding wins). -/
def itemGet (it : Item) (k : String) : Option Val := List.lookup k it

end Scorecard

/-! ## SHA-256 over byte lists

`hashlib.sha256` as used by `S3KeyValueStore.py` for content-addressed object
names and by the Bitmask Encoder (spec section 4.5) for opaque flag
identifiers.  Words are `Nat`s reduced mod `2 ^ 32`. -/

namespace Scorecard.SHA256

/-- The 32-bit word modulus. -/
def M32 : Nat := 4294967296

/-- Rotate a 32-bit word right by `n` bits. -/
def rotr (n x : Nat) : Nat := ((x >>> n) ||| (x <<< (32 - n))) % M32

/-- Bitwise complement within 32 bits. -/
def comp32 (x : Nat) : Nat := 4294967295 ^^^ x

/-- SHA-256 `Ch` function. -/
def ch (x y z : Nat) : Nat := (x &&& y) ^^^ (comp32 x &&& z)

/-- SHA-256 `Maj` function. -/
def maj (x y z : Nat) : Nat := (x &&& y) ^^^ (x &&& z) ^^^ (y &&& z)

/-- SHA-256 big sigma 0. -/
def bsig0 (x : Nat) : Nat := rotr 2 x ^^^ rotr 13 x ^^^ rotr 22 x

/-- SHA-256 big sigma 1. -/
def bsig1 (x : Nat) : Nat := rotr 6 x ^^^ rotr 11 x ^^^ rotr 25 x

/-- SHA-256 small sigma 0. -/
def ssig0 (x : Nat) : Nat := rotr 7 x ^^^ rotr 18 x ^^^ (x >>> 3)

/-- SHA-256 small sigma 1. -/
def ssig1 (x : Nat) : Nat := rotr 17 x ^^^ rotr 19 x ^^^ (x >>> 10)

/-- The 64 SHA-256 round constants (FIPS 180-2, written in decimal). -/
def K : List Nat :=
  [1116352408, 1899447441, 3049323471, 3921009573, 961987163,
   1508970993, 2453635748, 2870763221, 3624381080, 310598401,
   607225278, 1426881987, 1925078388, 2162078206, 2614888103,
   3248222580, 3835390401, 4022224774, 264347078, 604807628,
   770255983, 1249150122, 1555081692, 1996064986, 2554220882,
   2821834349, 2952996808, 3210313671, 3336571891, 3584528711,
   113926993, 338241895, 666307205, 773529912, 1294757372,
   1396182291, 1695183700, 1986661051, 2177026350, 2456956037,
   2730485921, 2820302411, 3259730800, 3345764771, 3516065817,
   3600352804, 4094571909, 275423344, 430227734, 506948616,
   659060556, 883997877, 958139571, 1322822218, 1537002063,
   1747873779, 1955562222, 2024104815, 2227730452, 2361852424,
   2428436474, 2756734187, 3204031479, 3329325298]

/-- The SHA-256 initial hash words (FIPS 180-2, written in decimal). -/
def H0 : List Nat :=
  [1779033703, 3144134277, 1013904242, 2773480762,
   1359893119, 2600822924, 528734635, 1541459225]

/-- Big-endian bytes (most significant first) of `n`, `count` bytes wide. -/
def beBytes (count n : Nat) : List Nat :=
  (List.range count).map (fun i => (n >>> (8 * (count - 1 - i))) % 256)

/-- SHA-256 padding: append `0x80`, zero bytes to 56 mod 64, then the 64-bit
big-endian bit length. -/
def pad (msg : List Nat) : List Nat :=
  let zeros := (119 - msg.length % 64) % 64
  msg ++ [0x80] ++ List.replicate zeros 0 ++ beBytes 8 (8 * msg.length)

/-- Split a byte list into 64-byte blocks (fuel-based structural recursion;
the fuel is the list length, which always suffices). -/
def toBlocksAux : Nat → List Nat → List (List Nat)
  | 0, _ => []
  | _, [] => []
  | Nat.succ fuel, l => l.take 64 :: toBlocksAux fuel (l.drop 64)

/-- Split a byte list into 64-byte blocks. -/
def toBlocks (l : List Nat) : List (List Nat) := toBlocksAux l.length l

/-- Combine bytes into big-endian 32-bit words. -/
def bytesToWords : List Nat → List Nat
  | a :: b :: c :: d :: rest =>
    (((a * 256 + b) * 256 + c) * 256 + d) :: bytesToWords rest
  | _ => []

/-- Extend a 16-word message schedule by `k` further words. -/
def extendW (w : List Nat) : Nat → List Nat
  | 0 => w
  | Nat.succ k =>
    let n := w.length
    let v := (ssig1 (w.getD (n - 2) 0) + w.getD (n - 7) 0 +
              ssig0 (w.getD (n - 15) 0) + w.getD (n - 16) 0) % M32
    extendW (w ++ [v]) k

/-- The eight working registers of the compression function. -/
structure Regs where
  a : Nat
  b : Nat
  c : Nat
  d : Nat
  e : Nat
  f : Nat
  g : Nat
  h : Nat
deriving Repr

/-- One compression round, consuming a `(k, w)` pair. -/
def round (r : Regs) (kw : Nat × Nat) : Regs :=
  let t1 := (r.h + bsig1 r.e + ch r.e r.f r.g + kw.1 + kw.2) % M32
  let t2 := (bsig0 r.a + maj r.a r.b r.c) % M32
  { a := (t1 + t2) % M32, b := r.a, c := r.b, d := r.c,
    e := (r.d + t1) % M32, f := r.e, g := r.f, h := r.g }

/-- Compress one 64-byte block into the running hash words. -/
def compress (hs : List Nat) (block : List Nat) : List Nat :=
  let w := extendW (bytesToWords block) 48
  let init : Regs :=
    { a := hs.getD 0 0, b := hs.getD 1 0, c := hs.getD 2 0, d := hs.getD 3 0,
      e := hs.getD 4 0, f := hs.getD 5 0, g := hs.getD 6 0, h := hs.getD 7 0 }
  let r := (K.zip w).foldl round init
  [(hs.getD 0 0 + r.a) % M32, (hs.getD 1 0 + r.b) % M32,
   (hs.getD 2 0 + r.c) % M32, (hs.getD 3 0 + r.d) % M32,
   (hs.getD 4 0 + r.e) % M32, (hs.getD 5 0 + r.f) % M32,
   (hs.getD 6 0 + r.g) % M32, (hs.getD 7 0 + r.h) % M32]

/-- SHA-256 of a byte list, as eight 32-bit hash words. -/
def hashWords (msg : List Nat) : List Nat :=
  (toBlocks (pad msg)).foldl compress H0

/-- Lower-case hex digit. -/
def hexDigit (n : Nat) : Char :=
  if n < 10 then Char.ofNat (48 + n) else Char.ofNat (87 + n)

/-- Eight-hex-digit rendering of a 32-bit word, as a character list. -/
def toHex8 (n : Nat) : List Char :=
  (List.range 8).map (fun i => hexDigit ((n >>> (4 * (7 - i))) % 16))

/-- Hex digest of a byte list. -/
def hexDigest (msg : List Nat) : String :=
  String.mk (((hashWords msg).map toHex8).flatten)

end Scorecard.SHA256

namespace Scorecard

/-- Byte encoding of a string (code points; identical to UTF-8 for the ASCII
strings this system hashes). -/
def strBytes (s : String) : List Nat := s.data.map Char.toNat

/-- `hashlib.sha256(s).hexdigest()`. -/
def sha256Hex (s : String) : String := SHA256.hexDigest (strBytes s)

end Scorecard

namespace Scorecard

/-! ## Canonical JSON serialization

`json.dumps(item_key, sort_keys=True)` as used by `S3KeyValueStore.py` to
canonicalize key fields before hashing. -/

/-- Byte-wise (code-point) string comparison, matching Python's `sorted` on
the ASCII strings used as attribute names. -/
def charListLe : List Char → List Char → Bool
  | [], _ => true
  | _ :: _, [] => false
  | a :: as, b :: bs =>
    if a.toNat < b.toNat then true
    else if b.toNat < a.toNat then false
    else charListLe as bs

/-- String comparison via `charListLe`. -/
def strLeB (a b : String) : Bool := charListLe a.data b.data

/-- JSON string escaping (backslash and double quote; the attribute names and
flag names this system serializes contain no control or non-ASCII
characters). -/
def jsonEscape (s : String) : String :=
  String.mk (s.data.flatMap (fun c =>
    if c = '"' ∨ c = '\\' then ['\\', c] else [c]))

/-- JSON rendering of a single value (Python float rendering is schematic via
`ratStr`; the key fields this system serializes are strings and integers). -/
def jsonVal : Val → String
  | .str s => "\"" ++ jsonEscape s ++ "\""
  | .int n => toString n
  | .num q => ratStr q
  | .bool b => if b then "true" else "false"
  | .none => "null"

/-- Key-ordering relation on dict entries, for `sort_keys=True`. -/
def entryKeyLe (a b : String × Val) : Prop := strLeB a.1 b.1 = true

instance : DecidableRel entryKeyLe := fun a b =>
  inferInstanceAs (Decidable (strLeB a.1 b.1 = true))

/-- Python 2 `json.dumps(d, sort_keys=True)` with default separators. -/
def jsonDumpsSorted (d : Item) : String :=
  let parts := (List.insertionSort entryKeyLe d).map
    (fun kv => "\"" ++ jsonEscape kv.1 ++ "\": " ++ jsonVal kv.2)
  "\x7b" ++ String.intercalate ", " parts ++ "\x7d"

/-! ## The S3 key-value store (`S3KeyValueStore.py`)

`Table.get_item`/`Table.put_item` over a blob store with get/put-by-name
semantics.  `cPickle.dumps`/`cPickle.loads` round-trip exactly, so object
bodies are modelled as the stored `Item` itself.  The S3 service is modelled
as an association list from object names to bodies; `get_object` on a live
service is abstracted as a `client` function so that arbitrary storage-layer
errors can be represented. -/

/-- Outcome of `client.get_object` for a given object name. -/
inductive S3GetResult where
  | ok (body : Item)
  | clientError (code : String)
deriving DecidableEq, Repr

/-- Errors raised by the S3 table layer: `ValueError` for an incomplete key
set (naming the required keys), or a re-raised `botocore` `ClientError`. -/
inductive S3Err where
  | valueError (keys : List String)
  | clientError (code : String)
deriving DecidableEq, Repr

/-- The `Table` object: bucket, prefix (`pfx`, the Python `prefix` attribute,
already `/`-stripped) and the declared key fields. -/
structure S3Table where
  bucket : String
  pfx : String
  keys : List String
deriving DecidableEq, Repr

/-- A blob store: object name to stored body. -/
abbrev S3Store := List (String × Item)

/-- `dict([(k, item[k]) for k in self.keys])` with `except KeyError:
item_key = dict()`. -/
def itemKeyExtract (keys : List String) (item : Item) : Item :=
  if keys.all (fun k => (itemGet item k).isSome) then
    keys.map (fun k => (k, (itemGet item k).getD Val.none))
  else []

/-- Does `set(item_key.keys()) == self.keys` hold?  (Extraction either yields
exactly the declared keys or the empty dict.) -/
def keySetOk (keys : List String) (item : Item) : Bool :=
  keys.all (fun k => (itemGet item k).isSome)

/-- `hashlib.sha256(json.dumps(item_key, sort_keys=True)).hexdigest()`. -/
def objectKey (keys : List String) (item : Item) : String :=
  sha256Hex (jsonDumpsSorted (itemKeyExtract keys item))

/-- `self.prefix + '/' + object_key`. -/
def objectName (tbl : S3Table) (item : Item) : String :=
  tbl.pfx ++ "/" ++ objectKey tbl.keys item

/-- `Table.get_item`: validate the key, fetch the named object, convert the
backend's `NoSuchKey` signal into an empty result, re-raise anything else. -/
def S3Table.get_item (tbl : S3Table) (client : String → S3GetResult)
    (key : Item) : Except S3Err (Option Item) :=
  if ¬ keySetOk tbl.keys key then .error (.valueError tbl.keys)
  else
    match client (objectName tbl key) with
    | .ok body => .ok (some body)
    | .clientError code =>
      if code = "NoSuchKey" then .ok Option.none
      else .error (.clientError code)

/-- `put_object`: (over)write the body stored under a name. -/
def s3PutObject (store : S3Store) (name : String) (body : Item) : S3Store :=
  store.filter (fun kv => kv.1 ≠ name) ++ [(name, body)]

/-- `Table.put_item`: validate the key, then store the full record under the
content-derived object name. -/
def S3Table.put_item (tbl : S3Table) (store : S3Store) (item : Item) :
    Except S3Err S3Store :=
  if ¬ keySetOk tbl.keys item then .error (.valueError tbl.keys)
  else .ok (s3PutObject store (objectName tbl item) item)

/-- The `get_object` client backed by a plain blob store: absent names signal
`NoSuchKey`. -/
def mapClient (store : S3Store) : String → S3GetResult := fun name =>
  match List.lookup name store with
  | some body => .ok body
  | Option.none => .clientError "NoSuchKey"

/-! ## The scores storage backend

The submission and tally handlers write and read team claim records through
either a DynamoDB table (composite primary key `(team, flag)`, per the test
table schemas) or an `S3KeyValueStore.Table` constructed with key fields
`['flag', 'team']`. -/

/-- The two scores-table backends. -/
inductive ScoresDb where
  | ddb (items : List Item)
  | s3 (tbl : S3Table) (store : S3Store)
deriving DecidableEq, Repr

/-- The `(team, flag)` composite-key fields of an item. -/
def claimKeyOf (r : Item) : Option Val × Option Val :=
  (itemGet r "team", itemGet r "flag")

/-- Two items agree on the `(team, flag)` composite primary key. -/
def sameClaimKey (a b : Item) : Bool :=
  claimKeyOf a == claimKeyOf b

/-- `put_item` on either backend (DynamoDB `put_item` replaces the item with
the same primary key). -/
def putItemDb (db : ScoresDb) (item : Item) : Except S3Err ScoresDb :=
  match db with
  | .ddb items => .ok (.ddb (items.filter (fun r => ¬ sameClaimKey r item) ++ [item]))
  | .s3 tbl store => (tbl.put_item store item).map (ScoresDb.s3 tbl)

/-- `get_item` on either backend. -/
def getItemDb (db : ScoresDb) (key : Item) : Except S3Err (Option Item) :=
  match db with
  | .ddb items => .ok (items.find? (fun r => sameClaimKey r key))
  | .s3 tbl store => tbl.get_item (mapClient store) key

/-- The `Key`/`Item` dict for a team's claim of a flag value. -/
def claimKey (team : Int) (flagVal : Val) : Item :=
  [("team", Val.int team), ("flag", flagVal)]

/-- The item dict written on a valid submission:
`{'team': ..., 'flag': ..., 'last_seen': Decimal(time.time())}`. -/
def claimItem (team : Int) (flagVal : Val) (now : ℚ) : Item :=
  [("team", Val.int team), ("flag", flagVal), ("last_seen", Val.num now)]

/-! ## Flag definitions and per-flag scoring (`ScoreCardTally.score_flag`) -/

/-- A row of the flags table. -/
structure FlagDef where
  flag : String
  weight : Option ℚ := Option.none
  timeout : Option ℚ := Option.none
  yes : Option Bool := Option.none
  auth_key : Option (List (String × String)) := Option.none
  nickname : Option String := Option.none
deriving DecidableEq, Repr

/-- `float(team_flag['last_seen'])`.  Claim records written by the submission
handler always carry a numeric `last_seen`; non-numeric shapes (which would
raise in Python) default to `0` and are never exercised by the theorems. -/
def lastSeenOf (it : Item) : ℚ :=
  match itemGet it "last_seen" with
  | some (Val.num q) => q
  | some (Val.int n) => (n : ℚ)
  | _ => 0

/-- The body of `score_flag` once the claim record (or its absence) is in
hand: the `if 'Item' in item` block of src/ScoreCardTally.py lines 69-99. -/
def scoreFlagItem (flag : FlagDef) (now : ℚ) : Option Item → Option ℚ
  | Option.none => Option.none
  | some team_flag =>
    match flag.weight with
    | Option.none => Option.none
    | some flag_weight =>
      match flag.timeout with
      | Option.none => some flag_weight
      | some flag_timeout =>
        let last_seen := lastSeenOf team_flag
        if flag.yes.getD true then
          if last_seen < now - flag_timeout then Option.none else some flag_weight
        else
          if last_seen > now - flag_timeout then Option.none else some flag_weight

/-- `ScoreCardTally.score_flag` (src/ScoreCardTally.py lines 64-99), with the
wall clock passed explicitly as `now`. -/
def score_flag (db : ScoresDb) (now : ℚ) (team : Int) (flag : FlagDef) :
    Except S3Err (Option ℚ) :=
  (getItemDb db (claimKey team (Val.str flag.flag))).map (scoreFlagItem flag now)

/-- The recomputation loop of the tally handler with its running `score`
accumulator: for each flag, add `score_flag`'s result when it is not `None`. -/
def computeScoreFrom (db : ScoresDb) (team : Int) (now : ℚ) :
    ℚ → List FlagDef → Except S3Err ℚ
  | score, [] => .ok score
  | score, f :: fs =>
    match score_flag db now team f with
    | .error e => .error e
    | .ok (some s) => computeScoreFrom db team now (score + s) fs
    | .ok Option.none => computeScoreFrom db team now score fs

/-- The recomputation loop of the tally handler (src/ScoreCardTally.py lines
152-160), starting from `score = 0.0`. -/
def computeScore (flags : List FlagDef) (db : ScoresDb) (team : Int) (now : ℚ) :
    Except S3Err ℚ :=
  computeScoreFrom db team now 0 flags

/-! ## Cache-lifetime overrides

Both handlers begin with
`try: CACHE['...'] = float(event['...Lifetime']) except: pass`
(src/ScoreCardSubmit.py lines 80-83, src/ScoreCardTally.py lines 119-127):
a request parameter, when present and float-parseable, overwrites the
module-scope cache lifetime; otherwise the current value is kept. -/

/-- Apply one request's optional cache-lifetime parameter to the current
lifetime value. -/
def applyCacheLifetime (cur : ℚ) (p : Option Val) : ℚ :=
  match p with
  | Option.none => cur
  | some v =>
    match pyFloat v with
    | .ok q => q
    | .error _ => cur

/-- The lifetime in effect after a sequence of requests, each optionally
supplying a cache-lifetime parameter. -/
def lifetimeAfter (init : ℚ) (ps : List (Option Val)) : ℚ :=
  ps.foldl applyCacheLifetime init

/-- The lifetime values of a request sequence that parse as floats (the
"requested lifetimes observed"). -/
def parsedLifetimes (ps : List (Option Val)) : List ℚ :=
  ps.filterMap (fun p =>
    match p with
    | Option.none => Option.none
    | some v =>
      match pyFloat v with
      | .ok q => some q
      | .error _ => Option.none)

/-! ## The submission handler (`ScoreCardSubmit.lambda_handler`) -/

/-- Errors escaping a handler: an uncaught Python exception or a storage
backend error. -/
inductive HandlerErr where
  | py (e : PyErr)
  | backend (e : S3Err)
deriving DecidableEq, Repr

/-- The post-validation value of `event['team']`: `None` when the key was
missing (`KeyError`) or the value failed to parse (`ValueError`); any other
exception from `int(...)` (e.g. `TypeError` on a `null`) propagates. -/
def parseTeam : Option Val → Except PyErr (Option Int)
  | Option.none => .ok Option.none
  | some v =>
    match pyInt v with
    | .ok n => .ok (some n)
    | .error .valueError => .ok Option.none
    | .error e => .error e

/-- The team validation message (identical in both handlers, typo included). -/
def teamErrorMsg : String :=
  "\"team\" key must exist and be integeral or parsable as integral"

/-- The flag message appended to an existing error list. -/
def flagErrorMsgAppended : String := "\"flag\" key must exist"

/-- The flag message when it is the only error (source typo: unclosed quote). -/
def flagErrorMsgAlone : String := "\"flag key must exist"

/-- The `ClientError` list accumulated by the validation block
(src/ScoreCardSubmit.py lines 88-111). -/
def submitValidationMsgs (teamOpt : Option Int) (flagPresent : Bool) :
    List String :=
  let teamMsgs : List String :=
    match teamOpt with
    | Option.none => [teamErrorMsg]
    | some _ => []
  if flagPresent then teamMsgs
  else
    match teamMsgs with
    | [] => [flagErrorMsgAlone]
    | ms => ms ++ [flagErrorMsgAppended]

/-- A submission request event (extraneous keys are ignored by the source). -/
structure SubmitEvent where
  team : Option Val := Option.none
  flag : Option Val := Option.none
  auth_key : Option Val := Option.none
  flagCacheLifetime : Option Val := Option.none
deriving DecidableEq, Repr

/-- A submission response. -/
inductive SubmitRes where
  | clientError (msgs : List String)
  | validFlag (b : Bool)
deriving DecidableEq, Repr

/-- `ScoreCardSubmit.lambda_handler` (src/ScoreCardSubmit.py lines 59-143)
after module initialization: `flags` is the current flag snapshot returned by
`update_flag_data()` (the `FlagCacheLifetime` overwrite of the snapshot's
check interval is embedded separately as `applyCacheLifetime`), `db` the
scores backend, `now` the wall clock read by `time.time()`. -/
def submit (flags : List FlagDef) (db : ScoresDb) (e : SubmitEvent) (now : ℚ) :
    Except HandlerErr (SubmitRes × ScoresDb) :=
  match parseTeam e.team with
  | .error pe => .error (.py pe)
  | .ok teamOpt =>
    match submitValidationMsgs teamOpt e.flag.isSome with
    | msg :: more => .ok (.clientError (msg :: more), db)
    | [] =>
      match teamOpt, e.flag with
      | some team, some flagVal =>
        let flag_items := flags.filter (fun f => f.flag = pyStr flagVal)
        match flag_items with
        | [] => .ok (.validFlag false, db)
        | flag_item :: _ =>
          let doPut : Except HandlerErr (SubmitRes × ScoresDb) :=
            match putItemDb db (claimItem team flagVal now) with
            | .ok db2 => .ok (.validFlag true, db2)
            | .error be => .error (.backend be)
          match flag_item.auth_key with
          | Option.none => doPut
          | some authMap =>
            match e.auth_key with
            | Option.none => .ok (.validFlag false, db)
            | some ak =>
              match List.lookup (toString team) authMap with
              | Option.none => .error (.py (.keyError (toString team)))
              | some expected =>
                if ak = Val.str expected then doPut
                else .ok (.validFlag false, db)
      | _, _ =>
        -- unreachable: an empty message list forces both fields present
        .ok (.validFlag false, db)

/-! ## The tally handler (`ScoreCardTally.lambda_handler`) -/

/-- A per-team score cache entry (`TEAM_SCORE_CACHE[team]`). -/
structure CacheEntry where
  score : ℚ
  time : ℚ
deriving DecidableEq, Repr

/-- The module-scope `TEAM_SCORE_CACHE`: the `'timeout'` entry plus the
per-team entries. -/
structure TallyState where
  timeout : ℚ
  cache : List (Int × CacheEntry)
deriving DecidableEq, Repr

/-- A tally request event. -/
structure TallyEvent where
  team : Option Val := Option.none
  scoreCacheLifetime : Option Val := Option.none
  flagCacheLifetime : Option Val := Option.none
deriving DecidableEq, Repr

/-- A tally response. -/
inductive TallyRes where
  | clientError (msgs : List String)
  | result (team : Int) (score : ℚ)
deriving DecidableEq, Repr

/-- Replace (or create) a team's cache entry. -/
def cacheInsert (cache : List (Int × CacheEntry)) (team : Int)
    (entry : CacheEntry) : List (Int × CacheEntry) :=
  cache.filter (fun kv => kv.1 ≠ team) ++ [(team, entry)]

/-- `ScoreCardTally.lambda_handler` (src/ScoreCardTally.py lines 102-163)
after module initialization: `flags` is the current flag snapshot, `db` the
scores backend, `st` the score cache state, `now` the wall clock. -/
def tally (flags : List FlagDef) (db : ScoresDb) (st : TallyState)
    (e : TallyEvent) (now : ℚ) : Except HandlerErr (TallyRes × TallyState) :=
  let timeout := applyCacheLifetime st.timeout e.scoreCacheLifetime
  match parseTeam e.team with
  | .error pe => .error (.py pe)
  | .ok Option.none =>
    .ok (.clientError [teamErrorMsg], { timeout := timeout, cache := st.cache })
  | .ok (some team) =>
    let recompute : Except HandlerErr (TallyRes × TallyState) :=
      match computeScore flags db team now with
      | .error be => .error (.backend be)
      | .ok score =>
        .ok (.result team score,
             { timeout := timeout,
               cache := cacheInsert st.cache team { score := score, time := now } })
    match List.lookup team st.cache with
    | some entry =>
      if entry.time > now - timeout then
        .ok (.result team entry.score, { timeout := timeout, cache := st.cache })
      else recompute
    | Option.none => recompute

/-! ## Derived notions used by the testable properties -/

/-- The claim records present in a backend for a `(team, flag-value)` pair. -/
def claimRecordsFor (db : ScoresDb) (team : Int) (flagVal : Val) : List Item :=
  match db with
  | .ddb items => items.filter (fun r => sameClaimKey r (claimKey team flagVal))
  | .s3 _ store =>
    (store.map Prod.snd).filter (fun r => sameClaimKey r (claimKey team flagVal))

/-- Backend well-formedness: an S3 scores table is keyed `['flag', 'team']`
(as constructed by both handlers) and every stored object sits under the
object name derived from its own key fields. -/
def S3WellFormed : ScoresDb → Prop
  | .ddb _ => True
  | .s3 tbl store => tbl.keys = ["flag", "team"] ∧ ∀ p ∈ store, p.1 = objectName tbl p.2

/-- The content-derived object name of any record carrying a given
`(team, flag)` composite key. -/
def claimObjectName (tbl : S3Table) (team : Int) (v : Val) : String :=
  tbl.pfx ++ "/" ++ sha256Hex (jsonDumpsSorted [("flag", v), ("team", Val.int team)])

/-! ## The Bitmask Encoder and current-generation tally result

The current-generation tally implementation — the one exercised by
src/test/TestScoreCard.py and consumed by src/LogReplay.py, whose responses
carry a `bitmask` — is not present under src/ (src/ScoreCardTally.py returns
only `Team` and `Score`, although its recompute loop already builds the
per-flag `(name, score)` tuple list that the encoder consumes).  The encoder
and the result assembly are therefore modelled from the spec (sections 4.4
and 4.5). -/

/-- One client-facing bitmask entry: an opaque hashed flag identifier, the
claimed bit, and the display nickname. -/
structure BitmaskEntry where
  hash : String
  claimed : Bool
  nickname : Option String
deriving DecidableEq, Repr

/-- Modelled from the spec: `claimed = (score_or_none is not None and
score_or_none != 0)` (spec section 4.5). -/
def bitmaskClaimed : Option ℚ → Bool
  | Option.none => false
  | some q => decide (q ≠ 0)

/-- A `(flag_name, score_or_none, nickname)` tuple, one per flag definition
evaluated by the tally recompute loop. -/
abbrev FlagTuple := String × Option ℚ × Option String

/-- Canonical ordering of the tuples by flag name. -/
def tupleNameLe (a b : FlagTuple) : Prop := strLeB a.1 b.1 = true

instance : DecidableRel tupleNameLe := fun a b =>
  inferInstanceAs (Decidable (strLeB a.1 b.1 = true))

/-- Modelled from the spec: one encoder output entry — the SHA-256 hex digest
of the flag name as an opaque identifier, the claimed bit, and the nickname
(spec section 4.5). -/
def encodeEntry (t : FlagTuple) : BitmaskEntry :=
  { hash := sha256Hex t.1, claimed := bitmaskClaimed t.2.1, nickname := t.2.2 }

/-- Modelled from the spec: the Bitmask Encoder (spec section 4.5) — sort the
tuples canonically by flag name, then encode each. -/
def buildBitmask (tuples : List FlagTuple) : List BitmaskEntry :=
  (List.insertionSort tupleNameLe tuples).map encodeEntry

/-- The per-flag tuple list built by the tally recompute loop
(`scores.append([flag['flag'], flag_score])`, src/ScoreCardTally.py line 158,
extended with the nickname the encoder needs). -/
def tallyTuples (db : ScoresDb) (team : Int) (now : ℚ) :
    List FlagDef → Except S3Err (List FlagTuple)
  | [] => .ok []
  | f :: fs =>
    match score_flag db now team f with
    | .error e => .error e
    | .ok s => (tallyTuples db team now fs).map (fun rest => (f.flag, s, f.nickname) :: rest)

/-- One step of the score accumulator (`if flag_score is not None: score +=
float(flag_score)`). -/
def sumStep (acc : ℚ) (t : FlagTuple) : ℚ :=
  match t.2.1 with
  | some s => acc + s
  | Option.none => acc

/-- The score accumulated over a tuple list, starting from `score = 0.0`. -/
def sumTuples (tuples : List FlagTuple) : ℚ := tuples.foldl sumStep 0

/-- A current-generation tally response (modelled from the spec: `{team,
score, bitmask}` or `{client_error: [...]}`). -/
inductive MTallyRes where
  | clientError (msgs : List String)
  | result (team : Int) (score : ℚ) (bitmask : List BitmaskEntry)
deriving DecidableEq, Repr

/-- A current-generation per-team score cache entry (modelled from the spec:
the cached `{team, score, bitmask}` with its `computed_at` timestamp). -/
structure MCacheEntry where
  score : ℚ
  bitmask : List BitmaskEntry
  time : ℚ
deriving DecidableEq, Repr

/-- The current-generation score cache state. -/
structure MTallyState where
  timeout : ℚ
  cache : List (Int × MCacheEntry)
deriving DecidableEq, Repr

/-- Replace (or create) a team's entry in the current-generation cache. -/
def mcacheInsert (cache : List (Int × MCacheEntry)) (team : Int)
    (entry : MCacheEntry) : List (Int × MCacheEntry) :=
  cache.filter (fun kv => kv.1 ≠ team) ++ [(team, entry)]

/-- Modelled from the spec: the current-generation tally operation (spec
section 4.4) — validate the team, serve from the per-team cache when fresh,
otherwise recompute the score with the src recompute loop (`score_flag` over
the flag snapshot), build the ordered bitmask via the Bitmask Encoder, cache
`{team, score, bitmask}` with `computed_at = now`, and return it. -/
def tallyModeled (flags : List FlagDef) (db : ScoresDb) (st : MTallyState)
    (e : TallyEvent) (now : ℚ) : Except HandlerErr (MTallyRes × MTallyState) :=
  let timeout := applyCacheLifetime st.timeout e.scoreCacheLifetime
  match parseTeam e.team with
  | .error pe => .error (.py pe)
  | .ok Option.none =>
    .ok (.clientError [teamErrorMsg], { timeout := timeout, cache := st.cache })
  | .ok (some team) =>
    let recompute : Except HandlerErr (MTallyRes × MTallyState) :=
      match tallyTuples db team now flags with
      | .error be => .error (.backend be)
      | .ok tuples =>
        let score := sumTuples tuples
        let bitmask := buildBitmask tuples
        .ok (.result team score bitmask,
             { timeout := timeout,
               cache := mcacheInsert st.cache team
                 { score := score, bitmask := bitmask, time := now } })
    match List.lookup team st.cache with
    | some entry =>
      if entry.time > now - timeout then
        .ok (.result team entry.score entry.bitmask,
             { timeout := timeout, cache := st.cache })
      else recompute
    | Option.none => recompute

/-! ## SHA-256 sanity checks (FIPS 180-2 test vectors) -/

/-- FIPS 180-2 test vector: digest of the empty string. -/
example : sha256Hex "" =
    "e3b0c44298fc1c149afbf4c8996fb92427ae41e4649b934ca495991b7852b855" := by
  decide

/-- FIPS 180-2 test vector: digest of `"abc"`. -/
example : sha256Hex "abc" =
    "ba7816bf8f01cfea414140de5dae2223b00361a396177a9cb410ff61f20015ad" := by
  decide

/-! ## Claim C2: the per-flag validity predicate -/

/-- C2: for a flag definition with a defined weight and a recorded claim with
timestamp `last_seen`, evaluated at `now`, `score_flag` returns the weight
exactly when the validity predicate holds and nothing otherwise: with no
timeout the flag is valid iff a claim record exists; with a timeout and `yes`
true or unset it is valid iff `last_seen >= now - timeout`; with a timeout
and `yes` false it is valid iff `last_seen <= now - timeout`. -/
theorem score_flag_validity
    (db : ScoresDb) (now : ℚ) (team : Int) (f : FlagDef) (w : ℚ)
    (rec? : Option Item)
    (hw : f.weight = some w)
    (hget : getItemDb db (claimKey team (Val.str f.flag)) = .ok rec?) :
    (f.timeout = Option.none →
      (score_flag db now team f = .ok (some w) ↔ rec?.isSome = true)) ∧
    (∀ t, f.timeout = some t → f.yes = Option.none ∨ f.yes = some true →
      (score_flag db now team f = .ok (some w) ↔
        ∃ rec, rec? = some rec ∧ lastSeenOf rec ≥ now - t)) ∧
    (∀ t, f.timeout = some t → f.yes = some false →
      (score_flag db now team f = .ok (some w) ↔
        ∃ rec, rec? = some rec ∧ lastSeenOf rec ≤ now - t)) ∧
    (score_flag db now team f = .ok (some w) ∨
      score_flag db now team f = .ok Option.none) := by
  have hsf : score_flag db now team f = .ok (scoreFlagItem f now rec?) := by
    rw [score_flag, hget]
    rfl
  refine ⟨?_, ?_, ?_, ?_⟩
  · intro hto
    cases rec? with
    | none => simp [hsf, scoreFlagItem]
    | some rec => simp [hsf, scoreFlagItem, hw, hto]
  · intro t hto hyes
    cases rec? with
    | none => simp [hsf, scoreFlagItem]
    | some rec =>
      have hyd : f.yes.getD true = true := by
        rcases hyes with h | h <;> simp [h]
      simp only [hsf, scoreFlagItem, hw, hto, hyd, if_true, Except.ok.injEq,
        ge_iff_le]
      constructor
      · intro h
        refine ⟨rec, rfl, ?_⟩
        by_contra hlt
        simp only [not_le] at hlt
        simp [hlt] at h
      · rintro ⟨rec2, hrec2, hge⟩
        cases hrec2
        have hnl : ¬ lastSeenOf rec < now - t := not_lt.mpr hge
        simp [hnl]
  · intro t hto hyes
    cases rec? with
    | none => simp [hsf, scoreFlagItem]
    | some rec =>
      have hyd : f.yes.getD true = false := by simp [hyes]
      simp only [hsf, scoreFlagItem, hw, hto, hyd, Bool.false_eq_true, if_false,
        Except.ok.injEq, gt_iff_lt]
      constructor
      · intro h
        refine ⟨rec, rfl, ?_⟩
        by_contra hgt
        simp only [not_le] at hgt
        simp [hgt] at h
      · rintro ⟨rec2, hrec2, hle⟩
        cases hrec2
        have hng : ¬ now - t < lastSeenOf rec := not_lt.mpr hle
        simp [hng]
  · cases rec? with
    | none => right; simp [hsf, scoreFlagItem]
    | some rec =>
      simp only [hsf, scoreFlagItem, hw]
      cases hto : f.timeout with
      | none => left; rfl
      | some t =>
        cases hyd : f.yes.getD true <;>
          · simp only [hyd, Bool.false_eq_true, if_false, if_true]
            split
            · right; rfl
            · left; rfl

/-- C2 witness: a revocable-alive flag of weight 2 with timeout 10, claimed at
time 95 and tallied at time 100, scores its weight. -/
theorem score_flag_validity_witness :
    score_flag
      (.ddb [[("team", Val.int 7), ("flag", Val.str "F"), ("last_seen", Val.num 95)]])
      100 7 { flag := "F", weight := some 2, timeout := some 10 } = .ok (some 2) := by
  have h := score_flag_validity
    (.ddb [[("team", Val.int 7), ("flag", Val.str "F"), ("last_seen", Val.num 95)]])
    100 7 { flag := "F", weight := some 2, timeout := some 10 } 2
    (some [("team", Val.int 7), ("flag", Val.str "F"), ("last_seen", Val.num 95)])
    rfl rfl
  exact (h.2.1 10 rfl (Or.inl rfl)).mpr
    ⟨[("team", Val.int 7), ("flag", Val.str "F"), ("last_seen", Val.num 95)],
     rfl, by show (95 : ℚ) ≥ 100 - 10; norm_num⟩

/-! ## Claim C5: validation error accumulation -/

/-- C5 counterexample: a submission whose `team` value is present but `null`
(a non-integer-parseable value) makes `int(event['team'])` raise `TypeError`,
which the handler's `except ValueError/KeyError` clauses do not catch — the
request raises instead of returning an accumulated validation-error list. -/
theorem submit_null_team_raises :
    submit [] (.ddb []) { team := some Val.none } 0 = .error (.py .typeError) := by
  rfl

/-- C5 (amended): for every submission whose `team` value is absent or of a
type on which `int(...)` raises at most `ValueError` (strings, numbers,
booleans) and/or whose `flag` is missing, the handler returns all applicable
validation errors accumulated in one list — both messages together when both
fields are bad, with no short-circuit — and performs no storage operation.
(A present `team` of another type, e.g. JSON `null`, raises an uncaught
`TypeError` instead.) -/
theorem submit_validation_accumulates
    (flags : List FlagDef) (db : ScoresDb) (e : SubmitEvent) (now : ℚ)
    (teamOpt : Option Int)
    (hteam : parseTeam e.team = .ok teamOpt)
    (hbad : teamOpt = Option.none ∨ e.flag = Option.none) :
    submit flags db e now =
      .ok (.clientError (submitValidationMsgs teamOpt e.flag.isSome), db) ∧
    submitValidationMsgs teamOpt e.flag.isSome =
      (if teamOpt = Option.none then [teamErrorMsg] else []) ++
      (if e.flag = Option.none then
        (if teamOpt = Option.none then [flagErrorMsgAppended] else [flagErrorMsgAlone])
       else []) ∧
    submitValidationMsgs teamOpt e.flag.isSome ≠ [] := by
  have hmsgs : submitValidationMsgs teamOpt e.flag.isSome =
      (if teamOpt = Option.none then [teamErrorMsg] else []) ++
      (if e.flag = Option.none then
        (if teamOpt = Option.none then [flagErrorMsgAppended] else [flagErrorMsgAlone])
       else []) := by
    cases teamOpt <;> cases hf : e.flag <;> simp [submitValidationMsgs, hf]
  have hne : submitValidationMsgs teamOpt e.flag.isSome ≠ [] := by
    rcases hbad with hb | hb
    · cases hf : e.flag <;> simp [submitValidationMsgs, hb, hf]
    · cases teamOpt <;> simp [submitValidationMsgs, hb]
  refine ⟨?_, hmsgs, hne⟩
  simp only [submit, hteam]
  cases hv : submitValidationMsgs teamOpt e.flag.isSome with
  | nil => exact absurd hv hne
  | cons m ms => simp [hv]

/-- C5 witness: a request missing both `team` and `flag` returns both
validation messages in one list and leaves the store untouched. -/
theorem submit_validation_accumulates_witness :
    submit [] (.ddb []) {} 0 =
      .ok (.clientError [teamErrorMsg, flagErrorMsgAppended], .ddb []) := by
  have h := submit_validation_accumulates [] (.ddb []) {} 0 Option.none rfl
    (Or.inl rfl)
  rw [h.1]
  rfl

/-! ## Claim C9: the flag-cache TTL under per-request overrides -/

/-- C9 counterexample: after requests supplying lifetimes 0 then 100 (initial
interval 30), the effective TTL is 100 — each parseable parameter overwrites
the TTL — whereas the smallest requested lifetime observed is 0; the two
differ, so the smallest-observed-wins description is false. -/
theorem flag_cache_ttl_overwrite_not_min :
    lifetimeAfter 30 [some (Val.num 0), some (Val.num 100)] = 100 ∧
    parsedLifetimes [some (Val.num 0), some (Val.num 100)] = [0, 100] ∧
    (parsedLifetimes [some (Val.num 0), some (Val.num 100)]).foldr min 30 = 0 ∧
    lifetimeAfter 30 [some (Val.num 0), some (Val.num 100)] ≠
      (parsedLifetimes [some (Val.num 0), some (Val.num 100)]).foldr min 30 := by
  refine ⟨rfl, rfl, ?_, ?_⟩
  · show min 0 (min 100 30) = 0
    norm_num
  · show (100 : ℚ) ≠ (parsedLifetimes [some (Val.num 0), some (Val.num 100)]).foldr min 30
    show (100 : ℚ) ≠ min 0 (min 100 30)
    norm_num

/-- C9 (amended): the flag cache's effective TTL equals the most recently
supplied float-parseable cache-lifetime parameter (last write wins; the prior
value persists across requests that supply none or an unparseable one) — a
later request supplying a larger lifetime raises it back. -/
theorem flag_cache_ttl_last_write_wins (init : ℚ) (ps : List (Option Val)) :
    lifetimeAfter init ps = (parsedLifetimes ps).getLastD init := by
  induction ps generalizing init with
  | nil => rfl
  | cons p ps ih =>
    cases p with
    | none =>
      have h2 : parsedLifetimes (Option.none :: ps) = parsedLifetimes ps := by
        simp [parsedLifetimes, List.filterMap_cons]
      calc lifetimeAfter init (Option.none :: ps)
          = lifetimeAfter init ps := rfl
        _ = (parsedLifetimes ps).getLastD init := ih init
        _ = (parsedLifetimes (Option.none :: ps)).getLastD init := by rw [h2]
    | some v =>
      cases hp : pyFloat v with
      | ok q =>
        have h2 : parsedLifetimes (some v :: ps) = q :: parsedLifetimes ps := by
          simp [parsedLifetimes, List.filterMap_cons, hp]
        calc lifetimeAfter init (some v :: ps)
            = lifetimeAfter q ps := by
              simp [lifetimeAfter, List.foldl_cons, applyCacheLifetime, hp]
          _ = (parsedLifetimes ps).getLastD q := ih q
          _ = (parsedLifetimes (some v :: ps)).getLastD init := by
              rw [h2, List.getLastD_cons]
      | error err =>
        have h2 : parsedLifetimes (some v :: ps) = parsedLifetimes ps := by
          simp [parsedLifetimes, List.filterMap_cons, hp]
        calc lifetimeAfter init (some v :: ps)
            = lifetimeAfter init ps := by
              simp [lifetimeAfter, List.foldl_cons, applyCacheLifetime, hp]
          _ = (parsedLifetimes ps).getLastD init := ih init
          _ = (parsedLifetimes (some v :: ps)).getLastD init := by rw [h2]

/-! ## Claim C3: authorization-key matching -/

/-- C3: the handler looks up `flag_item['auth_key'][str(event['team'])]`
without checking that the team is a key of the map
(src/ScoreCardSubmit.py line 135), so a team absent from an auth-gated
flag's `auth_key` map that supplies any `auth_key` raises an uncaught
`KeyError` instead of returning `{valid: false}` — the case the repository's
own tests (src/TestScorecard.py `test_auth_flag2`/`test_auth_flag3`, asserting
`{'ValidFlag': False}` for a wrong team with a key supplied) and the code's
own comment ("the team cannot claim this flag") require to be a well-formed
refusal. -/
theorem submit_auth_team_absent_raises :
    submit [{ flag := "F", weight := some 2, auth_key := some [("2", "k")] }]
      (.ddb [])
      { team := some (Val.int 1), flag := some (Val.str "F"),
        auth_key := some (Val.str "k") } 100 = .error (.py (.keyError "1")) := by
  rfl

/-! ## Claim C8: the content-addressed storage contract -/

/-- Looking up the just-written name in a blob store after `put_object`
returns the just-written body. -/
theorem lookup_s3PutObject_self (store : S3Store) (name : String) (body : Item) :
    List.lookup name (s3PutObject store name body) = some body := by
  induction store with
  | nil => simp [s3PutObject, List.lookup]
  | cons kv rest ih =>
    rcases kv with ⟨k, v⟩
    simp only [s3PutObject, List.filter_cons] at ih ⊢
    by_cases h : k = name
    · simpa [h] using ih
    · have hbeq : (name == k) = false := beq_eq_false_iff_ne.mpr (Ne.symm h)
      simpa [h, List.lookup, hbeq] using ih

/-- C8: for the content-addressed storage backend, `put_item` followed by
`get_item` with the same key-field values returns exactly the record that was
stored (key fields plus all extra value fields); `get_item` for a name the
backend reports absent (`NoSuchKey`) returns an empty result rather than
raising; any other storage-layer error propagates. -/
theorem s3_put_get_contract
    (tbl : S3Table) (store : S3Store) (item key : Item)
    (hitem : keySetOk tbl.keys item = true)
    (hkey : keySetOk tbl.keys key = true)
    (hsame : itemKeyExtract tbl.keys key = itemKeyExtract tbl.keys item) :
    (∀ store2, tbl.put_item store item = .ok store2 →
        tbl.get_item (mapClient store2) key = .ok (some item)) ∧
    (List.lookup (objectName tbl key) store = Option.none →
        tbl.get_item (mapClient store) key = .ok Option.none) ∧
    (∀ (client : String → S3GetResult) (code : String), code ≠ "NoSuchKey" →
        client (objectName tbl key) = .clientError code →
        tbl.get_item client key = .error (.clientError code)) := by
  have hname : objectName tbl key = objectName tbl item := by
    simp [objectName, objectKey, hsame]
  refine ⟨?_, ?_, ?_⟩
  · intro store2 hput
    have hput2 : tbl.put_item store item =
        .ok (s3PutObject store (objectName tbl item) item) := by
      simp [S3Table.put_item, hitem]
    rw [hput2] at hput
    injection hput with hstore2
    subst hstore2
    simp [S3Table.get_item, hkey, hname, mapClient, lookup_s3PutObject_self]
  · intro hmiss
    simp [S3Table.get_item, hkey, mapClient, hmiss]
  · intro client code hcode hcl
    simp [S3Table.get_item, hkey, hcl, hcode]

/-- C8 witness: with key fields `['hkey', 'skey']`, a stored record with an
extra value field round-trips through put/get, an absent name yields the
empty result, and an `AccessDenied` client error propagates. -/
theorem s3_put_get_contract_witness :
    S3Table.get_item ⟨"bucket", "Prefix-1", ["hkey", "skey"]⟩
      (mapClient (s3PutObject []
        (objectName ⟨"bucket", "Prefix-1", ["hkey", "skey"]⟩
          [("hkey", Val.str "12345"), ("skey", Val.int 2134), ("val1", Val.str "extra")])
        [("hkey", Val.str "12345"), ("skey", Val.int 2134), ("val1", Val.str "extra")]))
      [("hkey", Val.str "12345"), ("skey", Val.int 2134)] =
      .ok (some [("hkey", Val.str "12345"), ("skey", Val.int 2134), ("val1", Val.str "extra")]) ∧
    S3Table.get_item ⟨"bucket", "Prefix-1", ["hkey", "skey"]⟩ (mapClient [])
      [("hkey", Val.str "12345"), ("skey", Val.int 2134)] = .ok Option.none ∧
    S3Table.get_item ⟨"bucket", "Prefix-1", ["hkey", "skey"]⟩
      (fun _ => .clientError "AccessDenied")
      [("hkey", Val.str "12345"), ("skey", Val.int 2134)] =
      .error (.clientError "AccessDenied") := by
  have h := s3_put_get_contract ⟨"bucket", "Prefix-1", ["hkey", "skey"]⟩ []
    [("hkey", Val.str "12345"), ("skey", Val.int 2134), ("val1", Val.str "extra")]
    [("hkey", Val.str "12345"), ("skey", Val.int 2134)]
    rfl rfl rfl
  exact ⟨h.1 _ rfl, h.2.1 rfl, h.2.2 _ "AccessDenied" (by decide) rfl⟩

/-! ## Claim C4: idempotent upsert of claim records -/

/-- A submission that returned `{ValidFlag: True}` performed exactly the
upsert of the claim record with `last_seen = now`. -/
theorem submit_valid_put
    (flags : List FlagDef) (db : ScoresDb) (e : SubmitEvent) (now : ℚ)
    (db2 : ScoresDb) (team : Int) (flagVal : Val)
    (hteam : parseTeam e.team = .ok (some team))
    (hflag : e.flag = some flagVal)
    (hsub : submit flags db e now = .ok (.validFlag true, db2)) :
    putItemDb db (claimItem team flagVal now) = .ok db2 := by
  simp only [submit, hteam, hflag, Option.isSome_some, submitValidationMsgs] at hsub
  cases hfi : flags.filter (fun f => f.flag = pyStr flagVal) with
  | nil => simp [hfi] at hsub
  | cons flag_item rest =>
    rw [hfi] at hsub
    cases hput : putItemDb db (claimItem team flagVal now) with
    | error be =>
      cases hak : flag_item.auth_key with
      | none => simp [hak, hput] at hsub
      | some authMap =>
        cases hek : e.auth_key with
        | none => simp [hak, hek] at hsub
        | some ak =>
          cases hlk : List.lookup (toString team) authMap with
          | none => simp [hak, hek, hlk] at hsub
          | some expected =>
            by_cases heq : ak = Val.str expected
            · simp [hak, hek, hlk, heq, hput] at hsub
            · simp [hak, hek, hlk, heq] at hsub
    | ok dbp =>
      cases hak : flag_item.auth_key with
      | none =>
        simp only [hak, hput] at hsub
        injection hsub with hsub
        injection hsub with _ hdb
        rw [hdb]
      | some authMap =>
        cases hek : e.auth_key with
        | none => simp [hak, hek] at hsub
        | some ak =>
          cases hlk : List.lookup (toString team) authMap with
          | none => simp [hak, hek, hlk] at hsub
          | some expected =>
            by_cases heq : ak = Val.str expected
            · simp only [hak, hek, hlk, heq, if_true, hput] at hsub
              injection hsub with hsub
              injection hsub with _ hdb
              rw [hdb]
            · simp [hak, hek, hlk, heq] at hsub

/-- Any record whose key fields are `(team, v)` is stored under the
content-derived name of that composite key. -/
theorem objectName_eq_claimObjectName (tbl : S3Table)
    (hkeys : tbl.keys = ["flag", "team"]) (r : Item) (team : Int) (v : Val)
    (hr : claimKeyOf r = (some (Val.int team), some v)) :
    objectName tbl r = claimObjectName tbl team v := by
  have hteam : itemGet r "team" = some (Val.int team) := congrArg Prod.fst hr
  have hflag : itemGet r "flag" = some v := congrArg Prod.snd hr
  simp [objectName, objectKey, hkeys, itemKeyExtract, claimObjectName, hteam, hflag]

/-- `s3PutObject` at a record's own content-derived name preserves
well-formedness of the blob store. -/
theorem wf_s3PutObject (tbl : S3Table) (store : S3Store) (item : Item)
    (hwf : ∀ p ∈ store, p.1 = objectName tbl p.2) :
    ∀ p ∈ s3PutObject store (objectName tbl item) item, p.1 = objectName tbl p.2 := by
  intro p hp
  rcases List.mem_append.mp hp with h | h
  · exact hwf p (List.mem_of_mem_filter h)
  · rw [List.mem_singleton.mp h]

/-- After the DynamoDB-style upsert of a claim record, that record is the
only one stored for its `(team, flag)` pair. -/
theorem claimRecords_put_ddb (l : List Item) (team : Int) (v : Val) (t : ℚ) :
    (l.filter (fun r => ¬ sameClaimKey r (claimItem team v t)) ++
        [claimItem team v t]).filter
      (fun r => sameClaimKey r (claimKey team v)) = [claimItem team v t] := by
  have hsame : ∀ r : Item,
      sameClaimKey r (claimKey team v) = sameClaimKey r (claimItem team v t) :=
    fun r => rfl
  rw [List.filter_append]
  have h1 : (l.filter (fun r => ¬ sameClaimKey r (claimItem team v t))).filter
      (fun r => sameClaimKey r (claimKey team v)) = [] := by
    apply List.filter_eq_nil_iff.mpr
    intro r hr
    have hp : ¬ sameClaimKey r (claimItem team v t) = true :=
      of_decide_eq_true (List.mem_filter.mp hr).2
    rw [hsame r]
    exact hp
  rw [h1]
  have h2 : sameClaimKey (claimItem team v t) (claimKey team v) = true := by
    simp only [sameClaimKey, beq_iff_eq]
    rfl
  simp [h2]

/-- C4: for every valid `(team, flag)` pair, submitting the same flag twice in
succession leaves exactly one claim record for that pair — the second
submission overwrites rather than appends — with `last_seen` equal to the
second submission's time; this holds on both backends, and in particular the
content-addressed store maps equal key fields to the same object name, so the
second put replaces the first. -/
theorem submit_twice_single_record
    (flags : List FlagDef) (db : ScoresDb) (e : SubmitEvent) (t1 t2 : ℚ)
    (db1 db2 : ScoresDb) (team : Int) (flagVal : Val)
    (hwf : S3WellFormed db)
    (hteam : parseTeam e.team = .ok (some team))
    (hflag : e.flag = some flagVal)
    (h1 : submit flags db e t1 = .ok (.validFlag true, db1))
    (h2 : submit flags db1 e t2 = .ok (.validFlag true, db2)) :
    claimRecordsFor db2 team flagVal = [claimItem team flagVal t2] ∧
    (∀ tbl store, db = .s3 tbl store →
      objectName tbl (claimItem team flagVal t1) =
        objectName tbl (claimItem team flagVal t2)) := by
  have hp1 := submit_valid_put flags db e t1 db1 team flagVal hteam hflag h1
  have hp2 := submit_valid_put flags db1 e t2 db2 team flagVal hteam hflag h2
  have hckey1 : claimKeyOf (claimItem team flagVal t1) =
      (some (Val.int team), some flagVal) := rfl
  have hckey2 : claimKeyOf (claimItem team flagVal t2) =
      (some (Val.int team), some flagVal) := rfl
  cases db with
  | ddb items =>
    have hdb1 : db1 = .ddb (items.filter
        (fun r => ¬ sameClaimKey r (claimItem team flagVal t1)) ++
        [claimItem team flagVal t1]) := by
      simp only [putItemDb] at hp1
      injection hp1 with hp1
      exact hp1.symm
    subst hdb1
    have hdb2 : db2 = .ddb ((items.filter
        (fun r => ¬ sameClaimKey r (claimItem team flagVal t1)) ++
        [claimItem team flagVal t1]).filter
          (fun r => ¬ sameClaimKey r (claimItem team flagVal t2)) ++
        [claimItem team flagVal t2]) := by
      simp only [putItemDb] at hp2
      injection hp2 with hp2
      exact hp2.symm
    subst hdb2
    refine ⟨?_, ?_⟩
    · exact claimRecords_put_ddb _ team flagVal t2
    · intro tbl store hcontra
      cases hcontra
  | s3 tbl store =>
    obtain ⟨hkeys, hstore⟩ := hwf
    have hok : keySetOk tbl.keys (claimItem team flagVal t1) = true := by
      rw [hkeys]; rfl
    have hok2 : keySetOk tbl.keys (claimItem team flagVal t2) = true := by
      rw [hkeys]; rfl
    have hn1 : objectName tbl (claimItem team flagVal t1) =
        claimObjectName tbl team flagVal :=
      objectName_eq_claimObjectName tbl hkeys _ team flagVal hckey1
    have hn2 : objectName tbl (claimItem team flagVal t2) =
        claimObjectName tbl team flagVal :=
      objectName_eq_claimObjectName tbl hkeys _ team flagVal hckey2
    have hdb1 : db1 = .s3 tbl (s3PutObject store
        (objectName tbl (claimItem team flagVal t1)) (claimItem team flagVal t1)) := by
      simp only [putItemDb, S3Table.put_item, hok, Bool.not_true] at hp1
      simp only [Bool.false_eq_true, if_false, Except.map] at hp1
      injection hp1 with hp1
      exact hp1.symm
    subst hdb1
    have hstore1 : ∀ p ∈ s3PutObject store
        (objectName tbl (claimItem team flagVal t1)) (claimItem team flagVal t1),
        p.1 = objectName tbl p.2 :=
      wf_s3PutObject tbl store _ hstore
    have hdb2 : db2 = .s3 tbl (s3PutObject
        (s3PutObject store (objectName tbl (claimItem team flagVal t1))
          (claimItem team flagVal t1))
        (objectName tbl (claimItem team flagVal t2)) (claimItem team flagVal t2)) := by
      simp only [putItemDb, S3Table.put_item, hok2, Bool.not_true] at hp2
      simp only [Bool.false_eq_true, if_false, Except.map] at hp2
      injection hp2 with hp2
      exact hp2.symm
    subst hdb2
    refine ⟨?_, fun tbl2 store2 heq => ?_⟩
    · set store1 := s3PutObject store (objectName tbl (claimItem team flagVal t1))
        (claimItem team flagVal t1) with hstore1def
      show ((s3PutObject store1 (objectName tbl (claimItem team flagVal t2))
          (claimItem team flagVal t2)).map Prod.snd).filter
        (fun r => sameClaimKey r (claimKey team flagVal)) = [claimItem team flagVal t2]
      rw [s3PutObject, List.map_append, List.filter_append]
      have hnil : ((store1.filter
          (fun kv => kv.1 ≠ objectName tbl (claimItem team flagVal t2))).map
            Prod.snd).filter
          (fun r => sameClaimKey r (claimKey team flagVal)) = [] := by
        apply List.filter_eq_nil_iff.mpr
        intro b hb
        rcases List.mem_map.mp hb with ⟨p, hpmem, hpb⟩
        have hpstore : p ∈ store1 := List.mem_of_mem_filter hpmem
        have hpname : p.1 ≠ objectName tbl (claimItem team flagVal t2) := by
          have := List.of_mem_filter hpmem
          simpa using this
        intro hq
        have hbeq : (claimKeyOf b == claimKeyOf (claimKey team flagVal)) = true := hq
        have hqe : claimKeyOf b = (some (Val.int team), some flagVal) :=
          eq_of_beq hbeq
        have hbname : objectName tbl b = claimObjectName tbl team flagVal :=
          objectName_eq_claimObjectName tbl hkeys b team flagVal hqe
        have hpn : p.1 = objectName tbl p.2 := hstore1 p hpstore
        exact hpname (by rw [hpn, hpb, hbname, ← hn2])
      rw [hnil]
      have h2 : sameClaimKey (claimItem team flagVal t2) (claimKey team flagVal) = true := by
        simp only [sameClaimKey, beq_iff_eq]
        rfl
      simp [h2]
    · cases heq
      rw [hn1, hn2]

/-- C4 witness: team 10 submits flag `"F"` at times 5 and 9 against an empty
content-addressed store; exactly the time-9 record remains for the pair, and
both submissions target the same object name. -/
theorem submit_twice_single_record_witness :
    claimRecordsFor
      (.s3 ⟨"bucket", "pfx", ["flag", "team"]⟩
        (s3PutObject
          (s3PutObject []
            (objectName ⟨"bucket", "pfx", ["flag", "team"]⟩
              (claimItem 10 (Val.str "F") 5))
            (claimItem 10 (Val.str "F") 5))
          (objectName ⟨"bucket", "pfx", ["flag", "team"]⟩
            (claimItem 10 (Val.str "F") 9))
          (claimItem 10 (Val.str "F") 9)))
      10 (Val.str "F") = [claimItem 10 (Val.str "F") 9] ∧
    objectName ⟨"bucket", "pfx", ["flag", "team"]⟩ (claimItem 10 (Val.str "F") 5) =
      objectName ⟨"bucket", "pfx", ["flag", "team"]⟩ (claimItem 10 (Val.str "F") 9) := by
  have h := submit_twice_single_record
    [{ flag := "F", weight := some 1 }]
    (.s3 ⟨"bucket", "pfx", ["flag", "team"]⟩ [])
    { team := some (Val.int 10), flag := some (Val.str "F") } 5 9
    (.s3 ⟨"bucket", "pfx", ["flag", "team"]⟩
      (s3PutObject []
        (objectName ⟨"bucket", "pfx", ["flag", "team"]⟩ (claimItem 10 (Val.str "F") 5))
        (claimItem 10 (Val.str "F") 5)))
    (.s3 ⟨"bucket", "pfx", ["flag", "team"]⟩
      (s3PutObject
        (s3PutObject []
          (objectName ⟨"bucket", "pfx", ["flag", "team"]⟩ (claimItem 10 (Val.str "F") 5))
          (claimItem 10 (Val.str "F") 5))
        (objectName ⟨"bucket", "pfx", ["flag", "team"]⟩ (claimItem 10 (Val.str "F") 9))
        (claimItem 10 (Val.str "F") 9)))
    10 (Val.str "F") ⟨rfl, by simp⟩ rfl rfl rfl rfl
  exact ⟨h.1, h.2 _ _ rfl⟩

/-! ## Claim C10: non-string flag values are claimable but never scored -/

/-- Filtering with `p` does not change `find? q` when every removed element
fails `q`. -/
theorem find?_filter_invariant {α : Type} (l : List α) (p q : α → Bool)
    (h : ∀ r, p r = false → q r = false) :
    (l.filter p).find? q = l.find? q := by
  induction l with
  | nil => rfl
  | cons a l ih =>
    cases hp : p a
    · have hq := h a hp
      simp [List.filter_cons, hp, List.find?_cons, hq, ih]
    · cases hq : q a <;> simp [List.filter_cons, hp, List.find?_cons, hq, ih]

/-- A submission that parses, matches a definition with no `auth_key`, and
whose backend put succeeds, returns `{ValidFlag: True}` with the put applied. -/
theorem submit_valid_forward
    (flags : List FlagDef) (db : ScoresDb) (e : SubmitEvent) (now : ℚ)
    (team : Int) (flagVal : Val) (f : FlagDef) (rest : List FlagDef)
    (db2 : ScoresDb)
    (hteam : parseTeam e.team = .ok (some team))
    (hflag : e.flag = some flagVal)
    (hmatch : flags.filter (fun g => g.flag = pyStr flagVal) = f :: rest)
    (hauth : f.auth_key = Option.none)
    (hput : putItemDb db (claimItem team flagVal now) = .ok db2) :
    submit flags db e now = .ok (.validFlag true, db2) := by
  simp only [submit, hteam, hflag, Option.isSome_some, submitValidationMsgs,
    hmatch, hauth, hput]
  simp

/-- A non-string value is never equal to any `Val.str`. -/
theorem val_str_ne_nonstring (v : Val) (hnstr : v.isStr = false) (s : String) :
    Val.str s ≠ v := by
  cases v <;> simp_all [Val.isStr]

/-- C10: a submission whose flag value is not a string but whose string
conversion equals a flag definition's name (no `auth_key` on the definition)
returns `{ValidFlag: True}` and writes the claim record keyed by the original
non-string value, while the tally's lookup key carries the definition's name
string; the two keys differ, so the new record is invisible to `score_flag`
— in particular, with no prior claim under the name string the flag
contributes nothing to the team's score. -/
theorem submit_nonstring_flag_invisible
    (flags : List FlagDef) (items : List Item) (e : SubmitEvent) (now tnow : ℚ)
    (team : Int) (v : Val) (f : FlagDef) (rest : List FlagDef)
    (hteam : parseTeam e.team = .ok (some team))
    (hflag : e.flag = some v)
    (hnstr : v.isStr = false)
    (hmatch : flags.filter (fun g => g.flag = pyStr v) = f :: rest)
    (hauth : f.auth_key = Option.none) :
    submit flags (.ddb items) e now =
      .ok (.validFlag true,
        .ddb (items.filter (fun r => ¬ sameClaimKey r (claimItem team v now)) ++
              [claimItem team v now])) ∧
    Val.str (pyStr v) ≠ v ∧
    getItemDb
        (.ddb (items.filter (fun r => ¬ sameClaimKey r (claimItem team v now)) ++
               [claimItem team v now]))
        (claimKey team (Val.str f.flag)) =
      getItemDb (.ddb items) (claimKey team (Val.str f.flag)) ∧
    score_flag
        (.ddb (items.filter (fun r => ¬ sameClaimKey r (claimItem team v now)) ++
               [claimItem team v now]))
        tnow team f =
      score_flag (.ddb items) tnow team f ∧
    (getItemDb (.ddb items) (claimKey team (Val.str f.flag)) = .ok Option.none →
      score_flag
          (.ddb (items.filter (fun r => ¬ sameClaimKey r (claimItem team v now)) ++
                 [claimItem team v now]))
          tnow team f = .ok Option.none) := by
  have hfname : f.flag = pyStr v := by
    have : f ∈ flags.filter (fun g => g.flag = pyStr v) := by
      rw [hmatch]; exact List.mem_cons_self f rest
    exact of_decide_eq_true (List.mem_filter.mp this).2
  have hvne : Val.str (pyStr v) ≠ v := val_str_ne_nonstring v hnstr _
  -- the new record never matches the tally's string lookup key
  have hnomatch : sameClaimKey (claimItem team v now) (claimKey team (Val.str f.flag)) = false := by
    apply beq_eq_false_iff_ne.mpr
    intro hcontra
    have : some v = some (Val.str f.flag) :=
      congrArg Prod.snd hcontra
    injection this with hv
    exact hvne (by rw [← hfname]; exact hv.symm)
  have hgetsame : getItemDb
      (.ddb (items.filter (fun r => ¬ sameClaimKey r (claimItem team v now)) ++
             [claimItem team v now]))
      (claimKey team (Val.str f.flag)) =
      getItemDb (.ddb items) (claimKey team (Val.str f.flag)) := by
    simp only [getItemDb]
    congr 1
    rw [List.find?_append]
    have hsingle : List.find? (fun r => sameClaimKey r (claimKey team (Val.str f.flag)))
        [claimItem team v now] = Option.none := by
      simp [List.find?_cons, hnomatch]
    rw [hsingle]
    have hfiltered : (items.filter
        (fun r => ¬ sameClaimKey r (claimItem team v now))).find?
        (fun r => sameClaimKey r (claimKey team (Val.str f.flag))) =
        items.find? (fun r => sameClaimKey r (claimKey team (Val.str f.flag))) := by
      apply find?_filter_invariant
      intro r hp
      -- removed records match the new claim key, hence carry flag value `v`
      have hr : sameClaimKey r (claimItem team v now) = true := by
        cases hs : sameClaimKey r (claimItem team v now)
        · simp [hs] at hp
        · rfl
      have hre : claimKeyOf r = (some (Val.int team), some v) := eq_of_beq hr
      apply beq_eq_false_iff_ne.mpr
      intro hcontra
      have : some v = some (Val.str f.flag) := by
        have h1 := congrArg Prod.snd hre.symm
        have h2 := congrArg Prod.snd hcontra
        exact h1.trans h2
      injection this with hv
      exact hvne (by rw [← hfname]; exact hv.symm)
    rw [hfiltered]
    exact Option.or_none
  refine ⟨?_, hvne, hgetsame, ?_, ?_⟩
  · exact submit_valid_forward flags (.ddb items) e now team v f rest _
      hteam hflag hmatch hauth rfl
  · simp only [score_flag, hgetsame]
  · intro hnone
    simp only [score_flag, hgetsame, hnone]
    rfl

/-- C10 witness: the flag definition is named `"5"`; submitting the integer
`5` succeeds and stores a record keyed by the integer, which the tally's
string-keyed lookup never finds, so the flag scores nothing. -/
theorem submit_nonstring_flag_invisible_witness :
    submit [{ flag := "5", weight := some 1 }] (.ddb [])
      { team := some (Val.int 7), flag := some (Val.int 5) } 3 =
      .ok (.validFlag true, .ddb [claimItem 7 (Val.int 5) 3]) ∧
    Val.str (pyStr (Val.int 5)) ≠ Val.int 5 ∧
    score_flag (.ddb [claimItem 7 (Val.int 5) 3]) 20 7
      { flag := "5", weight := some 1 } = .ok Option.none := by
  have h := submit_nonstring_flag_invisible
    [{ flag := "5", weight := some 1 }] []
    { team := some (Val.int 7), flag := some (Val.int 5) } 3 20 7 (Val.int 5)
    { flag := "5", weight := some 1 } [] rfl rfl rfl rfl rfl
  exact ⟨h.1, h.2.1, h.2.2.2.2 rfl⟩

/-! ## Evaluation lemmas for the tally recompute loop -/

/-- Inversion of one step of the tuple-building loop. -/
theorem tallyTuples_cons_inv (db : ScoresDb) (team : Int) (now : ℚ)
    (f : FlagDef) (fs : List FlagDef) (tuples : List FlagTuple)
    (h : tallyTuples db team now (f :: fs) = .ok tuples) :
    ∃ s rest, score_flag db now team f = .ok s ∧
      tallyTuples db team now fs = .ok rest ∧
      tuples = (f.flag, s, f.nickname) :: rest := by
  simp only [tallyTuples] at h
  cases hs : score_flag db now team f with
  | error err => rw [hs] at h; cases h
  | ok s =>
    rw [hs] at h
    cases hr : tallyTuples db team now fs with
    | error err => rw [hr] at h; cases h
    | ok rest =>
      rw [hr] at h
      refine ⟨s, rest, rfl, rfl, ?_⟩
      injection h with h
      exact h.symm

/-- Every tuple produced by the loop comes from a flag of the snapshot, with
its `score_flag` result and nickname. -/
theorem tallyTuples_mem (db : ScoresDb) (team : Int) (now : ℚ) :
    ∀ (flags : List FlagDef) (tuples : List FlagTuple),
      tallyTuples db team now flags = .ok tuples →
      ∀ t ∈ tuples, ∃ f ∈ flags, score_flag db now team f = .ok t.2.1 ∧
        t = (f.flag, t.2.1, f.nickname) := by
  intro flags
  induction flags with
  | nil =>
    intro tuples h t ht
    injection h with h
    rw [← h] at ht
    cases ht
  | cons f fs ih =>
    intro tuples h t ht
    obtain ⟨s, rest, hs, hr, htt⟩ := tallyTuples_cons_inv db team now f fs tuples h
    subst htt
    rcases List.mem_cons.mp ht with rfl | htail
    · exact ⟨f, List.mem_cons_self f fs, hs, rfl⟩
    · obtain ⟨g, hg, hgs, hgt⟩ := ih rest hr t htail
      exact ⟨g, List.mem_cons_of_mem f hg, hgs, hgt⟩

/-- Every flag of the snapshot produces its tuple in the loop's output. -/
theorem tallyTuples_mem_of (db : ScoresDb) (team : Int) (now : ℚ) :
    ∀ (flags : List FlagDef) (tuples : List FlagTuple) (f : FlagDef),
      f ∈ flags → tallyTuples db team now flags = .ok tuples →
      ∃ s, score_flag db now team f = .ok s ∧ (f.flag, s, f.nickname) ∈ tuples := by
  intro flags
  induction flags with
  | nil => intro tuples f hf; cases hf
  | cons g fs ih =>
    intro tuples f hf h
    obtain ⟨s, rest, hs, hr, htt⟩ := tallyTuples_cons_inv db team now g fs tuples h
    subst htt
    rcases List.mem_cons.mp hf with rfl | htail
    · exact ⟨s, hs, List.mem_cons_self _ _⟩
    · obtain ⟨s2, hs2, hmem⟩ := ih rest f htail hr
      exact ⟨s2, hs2, List.mem_cons_of_mem _ hmem⟩

/-- The loop produces one tuple per flag definition. -/
theorem tallyTuples_length (db : ScoresDb) (team : Int) (now : ℚ) :
    ∀ (flags : List FlagDef) (tuples : List FlagTuple),
      tallyTuples db team now flags = .ok tuples →
      tuples.length = flags.length := by
  intro flags
  induction flags with
  | nil =>
    intro tuples h
    injection h with h
    rw [← h]
    rfl
  | cons f fs ih =>
    intro tuples h
    obtain ⟨s, rest, _, hr, htt⟩ := tallyTuples_cons_inv db team now f fs tuples h
    subst htt
    simp [ih rest hr]

/-- The score loop computes exactly the fold of the tuple list. -/
theorem computeScoreFrom_eq (db : ScoresDb) (team : Int) (now : ℚ) :
    ∀ (flags : List FlagDef) (acc : ℚ) (tuples : List FlagTuple),
      tallyTuples db team now flags = .ok tuples →
      computeScoreFrom db team now acc flags = .ok (tuples.foldl sumStep acc) := by
  intro flags
  induction flags with
  | nil =>
    intro acc tuples h
    injection h with h
    rw [← h]
    rfl
  | cons f fs ih =>
    intro acc tuples h
    obtain ⟨s, rest, hs, hr, htt⟩ := tallyTuples_cons_inv db team now f fs tuples h
    subst htt
    cases s with
    | none =>
      simpa [computeScoreFrom, hs, List.foldl_cons, sumStep] using ih acc rest hr
    | some w =>
      simpa [computeScoreFrom, hs, List.foldl_cons, sumStep] using ih (acc + w) rest hr

/-- The src recompute sum equals the tuple-list fold. -/
theorem computeScore_eq_sumTuples (db : ScoresDb) (team : Int) (now : ℚ)
    (flags : List FlagDef) (tuples : List FlagTuple)
    (h : tallyTuples db team now flags = .ok tuples) :
    computeScore flags db team now = .ok (sumTuples tuples) :=
  computeScoreFrom_eq db team now flags 0 tuples h

/-- The encoder emits one entry per tuple. -/
theorem buildBitmask_length (tuples : List FlagTuple) :
    (buildBitmask tuples).length = tuples.length := by
  simp [buildBitmask, (List.perm_insertionSort tupleNameLe tuples).length_eq]

/-- Encoder-output membership is tuple membership. -/
theorem mem_buildBitmask (tuples : List FlagTuple) (b : BitmaskEntry) :
    b ∈ buildBitmask tuples ↔ ∃ t ∈ tuples, encodeEntry t = b := by
  simp [buildBitmask, List.mem_map,
    (List.perm_insertionSort tupleNameLe tuples).mem_iff]

/-! ## Claim C6: weightless flags are claimable but never counted -/

/-- C6: a flag definition with no `weight` never contributes to any team's
score regardless of claim state (`score_flag` maps every fetched record — or
its absence — to `None`), its bitmask entry is always reported unclaimed, and
yet a valid submission of it still writes the claim record. -/
theorem weightless_flag_contract (f : FlagDef) (hw : f.weight = Option.none) :
    (∀ db now team, score_flag db now team f =
        (getItemDb db (claimKey team (Val.str f.flag))).map
          (fun _ => Option.none)) ∧
    (∀ db now team (flags : List FlagDef) (tuples : List FlagTuple),
        f ∈ flags → (flags.map FlagDef.flag).Nodup →
        tallyTuples db team now flags = .ok tuples →
        ((f.flag, (Option.none : Option ℚ), f.nickname) ∈ tuples ∧
         BitmaskEntry.mk (sha256Hex f.flag) false f.nickname ∈ buildBitmask tuples ∧
         ∀ t ∈ tuples, t.1 = f.flag → bitmaskClaimed t.2.1 = false)) ∧
    (∀ (flags : List FlagDef) (items : List Item) (e : SubmitEvent) (now : ℚ)
        (team : Int) (v : Val) (rest : List FlagDef),
        parseTeam e.team = .ok (some team) → e.flag = some v →
        flags.filter (fun g => g.flag = pyStr v) = f :: rest →
        f.auth_key = Option.none →
        submit flags (.ddb items) e now =
          .ok (.validFlag true,
            .ddb (items.filter (fun r => ¬ sameClaimKey r (claimItem team v now)) ++
                  [claimItem team v now]))) := by
  have hnever : ∀ db now team, score_flag db now team f =
      (getItemDb db (claimKey team (Val.str f.flag))).map (fun _ => Option.none) := by
    intro db now team
    have hitem : ∀ rec?, scoreFlagItem f now rec? = Option.none := by
      intro rec?
      cases rec? with
      | none => rfl
      | some rec => simp [scoreFlagItem, hw]
    cases hget : getItemDb db (claimKey team (Val.str f.flag)) with
    | error err => simp [score_flag, hget, Except.map]
    | ok rec? => simp [score_flag, hget, hitem, Except.map]
  refine ⟨hnever, ?_, ?_⟩
  · intro db now team flags tuples hf hnodup htup
    obtain ⟨s, hs, hmem⟩ := tallyTuples_mem_of db team now flags tuples f hf htup
    have hsnone : s = Option.none := by
      have h1 := hnever db now team
      rw [h1] at hs
      cases hget : getItemDb db (claimKey team (Val.str f.flag)) with
      | error err => rw [hget] at hs; cases hs
      | ok rec? =>
        rw [hget] at hs
        injection hs with hs
        exact hs.symm
    subst hsnone
    refine ⟨hmem, ?_, ?_⟩
    · exact (mem_buildBitmask tuples _).mpr ⟨(f.flag, Option.none, f.nickname), hmem, rfl⟩
    · intro t ht htname
      obtain ⟨g, hg, hgs, hgt⟩ := tallyTuples_mem db team now flags tuples htup t ht
      have hgf : g = f := by
        apply List.inj_on_of_nodup_map hnodup hg hf
        rw [← htname, hgt]
      subst hgf
      have h1 := hnever db now team
      rw [h1] at hgs
      cases hget : getItemDb db (claimKey team (Val.str g.flag)) with
      | error err => rw [hget] at hgs; cases hgs
      | ok rec? =>
        rw [hget] at hgs
        injection hgs with hgs
        rw [← hgs]
        rfl
  · intro flags items e now team v rest hteam hflag hmatch hauth
    exact submit_valid_forward flags (.ddb items) e now team v f rest _
      hteam hflag hmatch hauth rfl

/-- C6 witness: the weightless flag `"W"`: submitting it writes the claim
record, yet `score_flag` returns `None` on the claimed store, and its encoder
entry is unclaimed. -/
theorem weightless_flag_contract_witness :
    score_flag (.ddb [claimItem 10 (Val.str "W") 5]) 50 10 { flag := "W" } =
      .ok Option.none ∧
    submit [{ flag := "W" }] (.ddb [])
      { team := some (Val.int 10), flag := some (Val.str "W") } 5 =
      .ok (.validFlag true, .ddb [claimItem 10 (Val.str "W") 5]) ∧
    BitmaskEntry.mk (sha256Hex "W") false Option.none ∈
      buildBitmask [("W", Option.none, Option.none)] := by
  have h := weightless_flag_contract { flag := "W" } rfl
  refine ⟨?_, ?_, ?_⟩
  · rw [h.1 (.ddb [claimItem 10 (Val.str "W") 5]) 50 10]
    rfl
  · exact h.2.2 [{ flag := "W" }] []
      { team := some (Val.int 10), flag := some (Val.str "W") } 5 10
      (Val.str "W") [] rfl rfl rfl rfl
  · exact (h.2.1 (.ddb [claimItem 10 (Val.str "W") 5]) 50 10 [{ flag := "W" }]
      [("W", Option.none, Option.none)] (List.mem_singleton.mpr rfl)
      (by simp) rfl).2.1

/-! ## Claim C7: the per-team score cache window -/

/-- Looking up a team in the cache right after its entry is replaced returns
the new entry. -/
theorem lookup_cacheInsert_self (cache : List (Int × CacheEntry)) (team : Int)
    (entry : CacheEntry) :
    List.lookup team (cacheInsert cache team entry) = some entry := by
  induction cache with
  | nil => simp [cacheInsert, List.lookup]
  | cons kv rest ih =>
    rcases kv with ⟨k, v⟩
    simp only [cacheInsert, List.filter_cons] at ih ⊢
    by_cases h : k = team
    · simpa [h] using ih
    · have hbeq : (team == k) = false := beq_eq_false_iff_ne.mpr (Ne.symm h)
      simpa [h, List.lookup, hbeq] using ih

/-- Re-applying the same request's cache-lifetime parameter is a no-op. -/
theorem applyCacheLifetime_idem (cur : ℚ) (p : Option Val) :
    applyCacheLifetime (applyCacheLifetime cur p) p = applyCacheLifetime cur p := by
  cases p with
  | none => rfl
  | some v => cases h : pyFloat v <;> simp [applyCacheLifetime, h]

/-- C7: after a tally call for a team recomputes at time `t1` (caching the
score as `computed_at = t1`), a second call at `t2` with `t2 - t1 < ttl`
returns the identical result and state no matter how the claim store changed
in between; once the TTL has elapsed, the next call recomputes against the
current store and refreshes the cache entry. -/
theorem tally_cache_window
    (flags : List FlagDef) (db1 db2 : ScoresDb) (st : TallyState) (e : TallyEvent)
    (t1 t2 : ℚ) (team : Int) (s1 : ℚ)
    (hteam : parseTeam e.team = .ok (some team))
    (hmiss : List.lookup team st.cache = Option.none)
    (hscore1 : computeScore flags db1 team t1 = .ok s1) :
    tally flags db1 st e t1 =
      .ok (.result team s1,
        { timeout := applyCacheLifetime st.timeout e.scoreCacheLifetime,
          cache := cacheInsert st.cache team { score := s1, time := t1 } }) ∧
    (t2 - t1 < applyCacheLifetime st.timeout e.scoreCacheLifetime →
      tally flags db2
        { timeout := applyCacheLifetime st.timeout e.scoreCacheLifetime,
          cache := cacheInsert st.cache team { score := s1, time := t1 } } e t2 =
      .ok (.result team s1,
        { timeout := applyCacheLifetime st.timeout e.scoreCacheLifetime,
          cache := cacheInsert st.cache team { score := s1, time := t1 } })) ∧
    (¬ t2 - t1 < applyCacheLifetime st.timeout e.scoreCacheLifetime →
      ∀ s2, computeScore flags db2 team t2 = .ok s2 →
      tally flags db2
        { timeout := applyCacheLifetime st.timeout e.scoreCacheLifetime,
          cache := cacheInsert st.cache team { score := s1, time := t1 } } e t2 =
      .ok (.result team s2,
        { timeout := applyCacheLifetime st.timeout e.scoreCacheLifetime,
          cache := cacheInsert (cacheInsert st.cache team { score := s1, time := t1 })
            team { score := s2, time := t2 } })) := by
  refine ⟨?_, ?_, ?_⟩
  · simp only [tally, hteam, hmiss, hscore1]
  · intro hlt
    simp only [tally, hteam, applyCacheLifetime_idem,
      lookup_cacheInsert_self]
    rw [if_pos (by linarith)]
  · intro hge s2 hscore2
    simp only [tally, hteam, applyCacheLifetime_idem,
      lookup_cacheInsert_self, hscore2]
    rw [if_neg (by linarith)]

/-- C7 witness: team 10 tallies at time 0 (score 0 cached); a claim is
submitted; within the 30-second TTL (time 10) the cached score 0 is returned
unchanged; after the TTL (time 40) the recomputed score 1 is returned. -/
theorem tally_cache_window_witness :
    tally [{ flag := "F", weight := some 1 }] (.ddb []) { timeout := 30, cache := [] }
      { team := some (Val.str "10") } 0 =
      .ok (.result 10 0, { timeout := 30, cache := [(10, { score := 0, time := 0 })] }) ∧
    tally [{ flag := "F", weight := some 1 }] (.ddb [claimItem 10 (Val.str "F") 3])
      { timeout := 30, cache := [(10, { score := 0, time := 0 })] }
      { team := some (Val.str "10") } 10 =
      .ok (.result 10 0, { timeout := 30, cache := [(10, { score := 0, time := 0 })] }) ∧
    tally [{ flag := "F", weight := some 1 }] (.ddb [claimItem 10 (Val.str "F") 3])
      { timeout := 30, cache := [(10, { score := 0, time := 0 })] }
      { team := some (Val.str "10") } 40 =
      .ok (.result 10 1, { timeout := 30, cache := [(10, { score := 1, time := 40 })] }) := by
  have hsf : score_flag (.ddb [claimItem 10 (Val.str "F") 3]) 40 10
      { flag := "F", weight := some 1 } = .ok (some 1) := rfl
  have hscore2 : computeScore [{ flag := "F", weight := some 1 }]
      (.ddb [claimItem 10 (Val.str "F") 3]) 10 40 = .ok 1 := by
    show computeScoreFrom (.ddb [claimItem 10 (Val.str "F") 3]) 10 40 0
      [{ flag := "F", weight := some 1 }] = .ok 1
    simp [computeScoreFrom, hsf]
  have h10 := tally_cache_window [{ flag := "F", weight := some 1 }] (.ddb [])
    (.ddb [claimItem 10 (Val.str "F") 3]) { timeout := 30, cache := [] }
    { team := some (Val.str "10") } 0 10 10 0 rfl rfl rfl
  have h40 := tally_cache_window [{ flag := "F", weight := some 1 }] (.ddb [])
    (.ddb [claimItem 10 (Val.str "F") 3]) { timeout := 30, cache := [] }
    { team := some (Val.str "10") } 0 40 10 0 rfl rfl rfl
  exact ⟨h10.1, h10.2.1 (by norm_num [applyCacheLifetime]),
    h40.2.2 (by norm_num [applyCacheLifetime]) 1 hscore2⟩

/-! ## Claim C1: the tally result and its hashed bitmask -/

/-- C1: for every request with a parseable team identifier that is not served
from the score cache, the (current-generation, spec-modelled) tally returns
`{team, score, bitmask}` where the score is the src recompute sum and the
bitmask is built by the Bitmask Encoder: one entry per flag definition, each
carrying the SHA-256 hex digest of the flag name as an opaque identifier, a
claimed boolean, and the nickname; whenever no flag name is the digest of any
flag name in the snapshot, no entry's identifier equals a raw flag name. -/
theorem tally_bitmask_contract
    (flags : List FlagDef) (db : ScoresDb) (st : MTallyState) (e : TallyEvent)
    (now : ℚ) (team : Int) (tuples : List FlagTuple)
    (hteam : parseTeam e.team = .ok (some team))
    (hmiss : ∀ entry, List.lookup team st.cache = some entry →
      ¬ entry.time > now - applyCacheLifetime st.timeout e.scoreCacheLifetime)
    (htup : tallyTuples db team now flags = .ok tuples) :
    tallyModeled flags db st e now =
      .ok (.result team (sumTuples tuples) (buildBitmask tuples),
        { timeout := applyCacheLifetime st.timeout e.scoreCacheLifetime,
          cache := mcacheInsert st.cache team
            { score := sumTuples tuples, bitmask := buildBitmask tuples,
              time := now } }) ∧
    computeScore flags db team now = .ok (sumTuples tuples) ∧
    (buildBitmask tuples).length = flags.length ∧
    (∀ b ∈ buildBitmask tuples, ∃ f ∈ flags, ∃ s,
        score_flag db now team f = .ok s ∧
        b = { hash := sha256Hex f.flag, claimed := bitmaskClaimed s,
              nickname := f.nickname }) ∧
    ((∀ f ∈ flags, ∀ g ∈ flags, sha256Hex f.flag ≠ g.flag) →
      ∀ b ∈ buildBitmask tuples, ∀ g ∈ flags, b.hash ≠ g.flag) := by
  refine ⟨?_, computeScore_eq_sumTuples db team now flags tuples htup, ?_, ?_, ?_⟩
  · cases hlk : List.lookup team st.cache with
    | none => simp only [tallyModeled, hteam, hlk, htup]
    | some entry =>
      have hmiss2 := hmiss entry hlk
      simp only [tallyModeled, hteam, hlk, htup]
      rw [if_neg hmiss2]
  · rw [buildBitmask_length, tallyTuples_length db team now flags tuples htup]
  · intro b hb
    obtain ⟨t, ht, hbt⟩ := (mem_buildBitmask tuples b).mp hb
    obtain ⟨f, hf, hfs, hft⟩ := tallyTuples_mem db team now flags tuples htup t ht
    refine ⟨f, hf, t.2.1, hfs, ?_⟩
    have h1 : t.1 = f.flag := by rw [hft]
    have h2 : t.2.2 = f.nickname := by rw [hft]
    rw [← hbt]
    show encodeEntry t = _
    rw [encodeEntry, h1, h2]
  · intro hfresh b hb g hg
    obtain ⟨t, ht, hbt⟩ := (mem_buildBitmask tuples b).mp hb
    obtain ⟨f, hf, hfs, hft⟩ := tallyTuples_mem db team now flags tuples htup t ht
    have h1 : t.1 = f.flag := by rw [hft]
    have hbh : b.hash = sha256Hex f.flag := by
      rw [← hbt]
      show (encodeEntry t).hash = _
      rw [encodeEntry, h1]
    rw [hbh]
    exact hfresh f hf g hg

/-- C1 witness: a two-flag snapshot, flag `"alpha"` (weight 1, nickname `"A"`)
claimed and `"beta"` (weight 2) unclaimed; the uncached tally at time 60
returns the team, the recompute-loop score and the encoder's bitmask, with
one entry per flag definition. -/
theorem tally_bitmask_contract_witness :
    tallyModeled
      [{ flag := "alpha", weight := some 1, nickname := some "A" },
       { flag := "beta", weight := some 2 }]
      (.ddb [claimItem 10 (Val.str "alpha") 50])
      { timeout := 30, cache := [] } { team := some (Val.int 10) } 60 =
      .ok (.result 10
        (sumTuples [("alpha", some 1, some "A"), ("beta", Option.none, Option.none)])
        (buildBitmask [("alpha", some 1, some "A"), ("beta", Option.none, Option.none)]),
        { timeout := 30,
          cache := [(10,
            { score := sumTuples
                [("alpha", some 1, some "A"), ("beta", Option.none, Option.none)],
              bitmask := buildBitmask
                [("alpha", some 1, some "A"), ("beta", Option.none, Option.none)],
              time := 60 })] }) ∧
    (buildBitmask
      [("alpha", some 1, some "A"), ("beta", Option.none, Option.none)]).length = 2 := by
  have h := tally_bitmask_contract
    [{ flag := "alpha", weight := some 1, nickname := some "A" },
     { flag := "beta", weight := some 2 }]
    (.ddb [claimItem 10 (Val.str "alpha") 50])
    { timeout := 30, cache := [] } { team := some (Val.int 10) } 60 10
    [("alpha", some 1, some "A"), ("beta", Option.none, Option.none)]
    rfl (by intro entry hentry; simp at hentry) rfl
  exact ⟨h.1, h.2.2.1⟩

end Scorecard
